import Mathlib

/-!
Shallow embedding of `addons/hr_timesheet/models/project.py` (Odoo
`hr_timesheet` module): the timesheet-related extensions of the
`project.project` and `project.task` models.

Python floats are modelled as exact rationals (`ℚ`); Odoo record sets as
lists of structures; Python `dict` values passed to `create`/`write` as
structures of `Option` fields (`none` = key absent); raised exceptions as
the `Except` monad with an explicit exception taxonomy.
-/

namespace HrTimesheet

/-- The exception taxonomy used by the module (from `odoo.exceptions` and
Python builtins).  A `RedirectWarning` carries the `active_ids` of the
offending records that the warning names. -/
inductive Exc where
  | valueError
  | notImplementedError
  | userError
  | validationError
  | redirectWarning (activeIds : List Nat)
  deriving DecidableEq

/-- A Python value as it may arrive in the `value` argument of a search
method: a genuine `bool`, or anything else (`isinstance(value, bool)`
distinguishes exactly the booleans). -/
inductive PyVal where
  | pbool (b : Bool)
  | pint (n : Int)
  | pstr (s : String)
  deriving DecidableEq

/-- `isinstance(value, bool)`. -/
def PyVal.isBool : PyVal → Bool
  | .pbool _ => true
  | _ => false

/-- One domain leaf `(field, op, (query, params))` as returned by the
search translators. -/
structure DomainLeaf where
  fieldName : String
  op : String
  query : String
  params : List PyVal
  deriving DecidableEq

/-- The SQL subquery of `Project._search_is_internal_project`
(whitespace normalised). -/
def internal_project_query : String :=
  "SELECT C.internal_project_id FROM res_company C WHERE C.internal_project_id IS NOT NULL"

/-- The SQL subquery of `Project._search_is_project_overtime`
(whitespace normalised). -/
def project_overtime_query : String :=
  "SELECT Project.id FROM project_project AS Project JOIN project_task AS Task ON Project.id = Task.project_id WHERE Project.allocated_hours > 0 AND Project.allow_timesheets = TRUE AND Task.parent_id IS NULL AND Task.is_closed IS FALSE GROUP BY Project.id HAVING Project.allocated_hours - SUM(Task.effective_hours) < 0"

/-- `Project._search_is_internal_project(operator, value)`: reject a
non-bool value, then an operator outside `=`/`!=`, both with
`ValueError`; otherwise translate to a single `inselect` /
`not inselect` domain leaf over the internal-project subquery. -/
def search_is_internal_project (operator : String) (value : PyVal) :
    Except Exc (List DomainLeaf) :=
  match value with
  | .pbool b =>
    if operator ∉ (["=", "!="] : List String) then .error .valueError
    else
      let operator_new :=
        if (operator = "=" ∧ b = true) ∨ (operator = "!=" ∧ b = false) then "inselect"
        else "not inselect"
      .ok [⟨"id", operator_new, internal_project_query, []⟩]
  | _ => .error .valueError

/-- `Project._search_is_project_overtime(operator, value)`: same shape as
`_search_is_internal_project` over the overtime subquery. -/
def search_is_project_overtime (operator : String) (value : PyVal) :
    Except Exc (List DomainLeaf) :=
  match value with
  | .pbool b =>
    if operator ∉ (["=", "!="] : List String) then .error .valueError
    else
      let operator_new :=
        if (operator = "=" ∧ b = true) ∨ (operator = "!=" ∧ b = false) then "inselect"
        else "not inselect"
      .ok [⟨"id", operator_new, project_overtime_query, []⟩]
  | _ => .error .valueError

/-- Modelled from the spec: the keys of `OPERATOR_MAPPING`, imported by the
source from the rating module (`odoo.addons.rating.models.rating_data`),
which is not under `src/`.  It maps each standard comparison operator
string to the corresponding Python comparison function. -/
def OPERATOR_MAPPING_KEYS : List String := ["=", "!=", "<", "<=", ">", ">="]

/-- The SQL subquery built by `Task._search_remaining_hours_percentage`
(whitespace normalised); `table` interpolates `self._table` and
`operator` the checked operator. -/
def remaining_hours_percentage_query (table operator : String) : String :=
  "SELECT id FROM " ++ table ++ " WHERE remaining_hours > 0 AND planned_hours > 0 AND remaining_hours / planned_hours " ++ operator ++ " %s"

/-- `Task._search_remaining_hours_percentage(operator, value)`: an operator
outside `OPERATOR_MAPPING` raises `NotImplementedError`; otherwise the
predicate becomes a single `inselect` domain leaf with `value` as the lone
SQL parameter. -/
def search_remaining_hours_percentage (table operator : String) (value : PyVal) :
    Except Exc (List DomainLeaf) :=
  if operator ∉ OPERATOR_MAPPING_KEYS then .error .notImplementedError
  else
    .ok [⟨"id", "inselect", remaining_hours_percentage_query table operator, [value]⟩]

/-- An `account.analytic.line` (timesheet entry), kept to the fields the
claims use: its `project_id` and `task_id` many2one columns. -/
structure Timesheet where
  id : Nat
  project_id : Option Nat
  task_id : Option Nat
  deriving DecidableEq

/-- A `project.project` record, kept to the fields the claims use. -/
structure Project where
  id : Nat
  allow_timesheets : Bool
  analytic_account_id : Option Nat
  timesheet_ids : List Timesheet
  deriving DecidableEq

/-- A `project.task` record, kept to the fields the claims use. -/
structure Task where
  id : Nat
  project_id : Option Nat
  timesheet_ids : List Timesheet
  deriving DecidableEq

/-- The values dict of a `project.project` `create`/`write` call (or the
result of `default_get`), restricted to the two keys the module inspects:
`none` = key absent; `analytic_account_id` holds `some none` when the key
is present with a falsy value (`False`/`None`) and `some (some a)` when an
account id is supplied. -/
structure ProjectVals where
  allow_timesheets : Option Bool
  analytic_account_id : Option (Option Nat)
  deriving DecidableEq

/-- Python truthiness of `values.get('analytic_account_id')`: the key is
present and holds an actual account id. -/
def accountTruthy : Option (Option Nat) → Bool
  | some (some _) => true
  | _ => false

/-- `Project._check_allow_timesheet` (an `api.constrains` on
`allow_timesheets` and `analytic_account_id`, run by the framework after
every create/write touching those fields): raise `ValidationError` if any
record in the set allows timesheets without an analytic account. -/
def check_allow_timesheet (projects : List Project) : Except Exc Unit :=
  if projects.any (fun p => p.allow_timesheets && p.analytic_account_id.isNone)
  then .error .validationError
  else .ok ()

/-- `vals.get('allow_timesheets', defaults.get('allow_timesheets'))`,
taken as a Python truth value (an absent default is `None`, falsy). -/
def eff_allow (defaults vals : ProjectVals) : Bool :=
  match vals.allow_timesheets with
  | some b => b
  | none => defaults.allow_timesheets.getD false

/-- `vals.get('analytic_account_id', defaults.get('analytic_account_id'))`,
flattened to the account id it denotes (`none` when falsy or absent). -/
def eff_account (defaults vals : ProjectVals) : Option Nat :=
  match vals.analytic_account_id with
  | some a => a
  | none => (defaults.analytic_account_id.getD none)

/-- The loop body of `Project.create`: walk `vals_list` (the index `i`
numbers the entries so each gets its own fresh analytic account id from
`fresh`); whenever the effective `allow_timesheets` is truthy and the
effective `analytic_account_id` falsy, create an analytic account and
store its id into the vals before they reach `super().create`. -/
def project_create_prepare (fresh : Nat → Nat) (defaults : ProjectVals) :
    Nat → List ProjectVals → List ProjectVals
  | _, [] => []
  | i, vals :: rest =>
    (if eff_allow defaults vals && (eff_account defaults vals).isNone then
      { vals with analytic_account_id := some (some (fresh i)) }
    else vals) :: project_create_prepare fresh defaults (i + 1) rest

/-- The record `super().create` stores for one prepared vals entry:
missing keys fall back to the defaults, a fresh record id comes from
`mkId`. -/
def project_of_vals (mkId : Nat → Nat) (defaults : ProjectVals) (i : Nat)
    (vals : ProjectVals) : Project :=
  { id := mkId i
    allow_timesheets := eff_allow defaults vals
    analytic_account_id := eff_account defaults vals
    timesheet_ids := [] }

/-- Store one record per prepared vals entry, numbering them from `i`. -/
def projects_of_vals (mkId : Nat → Nat) (defaults : ProjectVals) :
    Nat → List ProjectVals → List Project
  | _, [] => []
  | i, vals :: rest =>
    project_of_vals mkId defaults i vals :: projects_of_vals mkId defaults (i + 1) rest

/-- The framework running the `_check_allow_timesheet` constraint on the
records a create/write is about to persist: the records survive only when
no constraint raised. -/
def guard_check (records : List Project) : Except Exc (List Project) :=
  match check_allow_timesheet records with
  | .error e => .error e
  | .ok _ => .ok records

/-- `Project.create(vals_list)` followed by the framework running the
`_check_allow_timesheet` constraint on the stored records. -/
def project_create (fresh mkId : Nat → Nat) (defaults : ProjectVals)
    (vals_list : List ProjectVals) : Except Exc (List Project) :=
  guard_check (projects_of_vals mkId defaults 0
    (project_create_prepare fresh defaults 0 vals_list))

/-- The pre-`super` hook of `Project.write`: when the values set
`allow_timesheets` truthy without a truthy `analytic_account_id`, each
project of the recordset that lacks an analytic account gets a fresh one
(via `_create_analytic_account`, modelled by `fresh` on the project id)
before `super().write` runs. -/
def project_write_hook (fresh : Nat → Nat) (projects : List Project)
    (values : ProjectVals) : List Project :=
  if values.allow_timesheets.getD false && !accountTruthy values.analytic_account_id then
    projects.map (fun p =>
      if p.analytic_account_id.isNone then
        { p with analytic_account_id := some (fresh p.id) }
      else p)
  else projects

/-- `super().write(values)` applied to one record: present keys overwrite
the stored fields. -/
def apply_project_vals (values : ProjectVals) (p : Project) : Project :=
  { p with
    allow_timesheets := values.allow_timesheets.getD p.allow_timesheets
    analytic_account_id :=
      match values.analytic_account_id with
      | some a => a
      | none => p.analytic_account_id }

/-- `Project.write(values)` on a recordset, followed by the framework
running the `_check_allow_timesheet` constraint on the updated records. -/
def project_write (fresh : Nat → Nat) (projects : List Project)
    (values : ProjectVals) : Except Exc (List Project) :=
  guard_check ((project_write_hook fresh projects values).map (apply_project_vals values))

/-- The values dict of a `project.task` `write` call, restricted to the
one key the module inspects: `none` = `project_id` key absent; `some none`
= present with a falsy value; `some (some p)` = present with project id
`p`. -/
structure TaskVals where
  project_id : Option (Option Nat)
  deriving DecidableEq

/-- `Task._get_timesheet` (overridden elsewhere; here, all linked
timesheet lines). -/
def get_timesheet (t : Task) : List Timesheet := t.timesheet_ids

/-- `self.env['project.project'].browse(values.get('project_id'))`:
a falsy id browses an empty recordset (`none`). -/
def find_project (projects : List Project) : Option Nat → Option Project
  | none => none
  | some pid => projects.find? (fun p => p.id = pid)

/-- `Task.write(values)` on one task: with a falsy `project_id` in the
values and linked timesheets, raise `UserError` before `super().write`;
otherwise apply the values, then, if the (possibly empty) browsed target
project allows timesheets, rewrite `project_id` on all the linked
timesheet lines. -/
def task_write (projects : List Project) (t : Task) (values : TaskVals) :
    Except Exc Task :=
  match values.project_id with
  | none => .ok t
  | some new_pid =>
    if new_pid.isNone ∧ ¬(get_timesheet t).isEmpty then .error .userError
    else
      let t1 := { t with project_id := new_pid }
      let allow := ((find_project projects new_pid).map
        (fun p => p.allow_timesheets)).getD false
      if allow then
        .ok { t1 with
          timesheet_ids := (get_timesheet t1).map (fun l => { l with project_id := new_pid }) }
      else .ok t1

/-- `Project._unlink_except_contains_entries` (an `api.ondelete` hook): if
some projects of the set have timesheet entries, raise a
`RedirectWarning` whose `active_ids` are exactly those projects. -/
def project_unlink_check (projects : List Project) : Except Exc Unit :=
  let projects_with_timesheets := projects.filter (fun p => ¬p.timesheet_ids.isEmpty)
  if ¬projects_with_timesheets.isEmpty then
    .error (.redirectWarning (projects_with_timesheets.map (fun p => p.id)))
  else .ok ()

/-- `Task._unlink_except_contains_entries` (an `api.ondelete` hook): group
the `account.analytic.line` table by `task_id` over the tasks of the set;
if some tasks have lines, raise a `RedirectWarning` whose `active_ids`
are exactly those tasks. -/
def task_unlink_check (tasks : List Task) (lines : List Timesheet) : Except Exc Unit :=
  let task_with_timesheets_ids :=
    (tasks.map (fun t => t.id)).filter (fun i => lines.any (fun l => l.task_id = some i))
  if ¬task_with_timesheets_ids.isEmpty then
    .error (.redirectWarning task_with_timesheets_ids)
  else .ok ()

/-- `unlink` on projects: the framework runs the ondelete hook first and
deletes the records from the database only when no hook raised. -/
def project_unlink (db projects : List Project) : Except Exc (List Project) :=
  match project_unlink_check projects with
  | .error e => .error e
  | .ok _ => .ok (db.filter (fun p => ¬projects.any (fun q => q.id = p.id)))

/-- `unlink` on tasks: the framework runs the ondelete hook first and
deletes the records from the database only when no hook raised. -/
def task_unlink (db tasks : List Task) (lines : List Timesheet) :
    Except Exc (List Task) :=
  match task_unlink_check tasks lines with
  | .error e => .error e
  | .ok _ => .ok (db.filter (fun t => ¬tasks.any (fun u => u.id = t.id)))

/-- `odoo.tools.float_utils.float_round(x, precision_digits=2)` with the
default HALF-UP method: round to two decimals, ties away from zero. -/
def float_round2 (x : ℚ) : ℚ :=
  ((if 0 ≤ x then ⌊x * 100 + 1 / 2⌋ else -⌊-(x * 100) + 1 / 2⌋ : ℤ) : ℚ) / 100

/-- `odoo.tools.float_utils.float_compare(a, b, precision_digits=2)`:
round both operands to two decimals, then return -1, 0 or 1. -/
def float_compare2 (a b : ℚ) : Int :=
  if float_round2 a < float_round2 b then -1
  else if float_round2 a = float_round2 b then 0
  else 1

/-- Python `round(x, 2)`: round to two decimals, ties to even. -/
def py_round2 (x : ℚ) : ℚ :=
  let f : ℤ := ⌊x * 100⌋
  let r : ℚ := x * 100 - f
  ((if r < 1 / 2 then f else if 1 / 2 < r then f + 1
    else if Even f then f else f + 1 : ℤ) : ℚ) / 100

/-- The body of `Task._compute_progress_hours` for one task, returning
`(progress, overtime)` from the three fields it reads:
`effective_hours`, `subtask_effective_hours` and `planned_hours`. -/
def compute_progress_hours (effective_hours subtask_effective_hours planned_hours : ℚ) :
    ℚ × ℚ :=
  if planned_hours > 0 then
    let task_total_hours := effective_hours + subtask_effective_hours
    let overtime := max (task_total_hours - planned_hours) 0
    if float_compare2 task_total_hours planned_hours ≥ 0 then (100, overtime)
    else (py_round2 (100 * task_total_hours / planned_hours), overtime)
  else (0, 0)

/-- The body of `Task._compute_remaining_hours_percentage` for one task:
divide only under the `planned_hours > 0` guard. -/
def compute_remaining_hours_percentage (planned_hours remaining_hours : ℚ) : ℚ :=
  if planned_hours > 0 then remaining_hours / planned_hours else 0

/-- The claim formula, following the spec words: progress and overtime
derived from exactly two numeric inputs, effective hours and planned
hours, with `overtime = max(effective_hours - planned_hours, 0)` and the
same progress rule applied to `effective_hours` alone.  Written for
comparison with `compute_progress_hours`, which is the source formula. -/
def spec_progress_two_inputs (effective_hours planned_hours : ℚ) : ℚ × ℚ :=
  if planned_hours > 0 then
    let overtime := max (effective_hours - planned_hours) 0
    if float_compare2 effective_hours planned_hours ≥ 0 then (100, overtime)
    else (py_round2 (100 * effective_hours / planned_hours), overtime)
  else (0, 0)

/-- A task subtree for the `subtask_effective_hours` rollup: the task
fields the computation reads (`effective_hours`, `active`) and its
`child_ids`.  The `active` flag is carried because the computation runs
`with_context(active_test=False)`, so archived children take part too. -/
inductive TaskTree where
  | node (effective_hours : ℚ) (active : Bool) (child_ids : List TaskTree)

/-- The stored `effective_hours` of the root task of a subtree. -/
def TaskTree.effective_hours : TaskTree → ℚ
  | .node e _ _ => e

/-- The `child_ids` of the root task of a subtree. -/
def TaskTree.child_ids : TaskTree → List TaskTree
  | .node _ _ cs => cs

mutual

/-- `Task._compute_subtask_effective_hours` for one task:
`sum(child.effective_hours + child.subtask_effective_hours for child in
task.child_ids)`, over all children regardless of `active`. -/
def subtask_effective_hours : TaskTree → ℚ
  | .node _ _ cs => children_rollup cs

/-- The sum in `_compute_subtask_effective_hours`, walked child by
child. -/
def children_rollup : List TaskTree → ℚ
  | [] => 0
  | c :: cs => (c.effective_hours + subtask_effective_hours c) + children_rollup cs

end

mutual

/-- All proper descendants (children, their children, ...) of a task,
archived ones included. -/
def descendant_tasks : TaskTree → List TaskTree
  | .node _ _ cs => descendant_list cs

/-- All tasks of a forest together with their proper descendants. -/
def descendant_list : List TaskTree → List TaskTree
  | [] => []
  | c :: cs => c :: (descendant_tasks c ++ descendant_list cs)

end

lemma search_internal_error_iff (operator : String) (value : PyVal) :
    search_is_internal_project operator value = .error .valueError ↔
      (value.isBool = false ∨ operator ∉ (["=", "!="] : List String)) := by
  cases value with
  | pbool b =>
    by_cases h : operator ∈ (["=", "!="] : List String) <;>
      simp [search_is_internal_project, h, PyVal.isBool]
  | pint n => simp [search_is_internal_project, PyVal.isBool]
  | pstr s => simp [search_is_internal_project, PyVal.isBool]

lemma search_overtime_error_iff (operator : String) (value : PyVal) :
    search_is_project_overtime operator value = .error .valueError ↔
      (value.isBool = false ∨ operator ∉ (["=", "!="] : List String)) := by
  cases value with
  | pbool b =>
    by_cases h : operator ∈ (["=", "!="] : List String) <;>
      simp [search_is_project_overtime, h, PyVal.isBool]
  | pint n => simp [search_is_project_overtime, PyVal.isBool]
  | pstr s => simp [search_is_project_overtime, PyVal.isBool]

/-- Claim C7: each boolean search translator raises exactly on a non-bool
value or an operator outside `=`/`!=`; otherwise it returns the single
domain leaf `('id', op, (query, ()))` with `op = 'inselect'` iff
`(operator = '=' and value)` or `(operator = '!=' and not value)`, so
searching `= True` and `!= False` yield the same subquery domain. -/
theorem search_boolean_translators :
    (∀ (operator : String) (value : PyVal),
        search_is_internal_project operator value = .error .valueError ↔
          (value.isBool = false ∨ operator ∉ (["=", "!="] : List String)))
    ∧ (∀ (operator : String) (value : PyVal),
        search_is_project_overtime operator value = .error .valueError ↔
          (value.isBool = false ∨ operator ∉ (["=", "!="] : List String)))
    ∧ (∀ (operator : String) (b : Bool), operator ∈ (["=", "!="] : List String) →
        search_is_internal_project operator (.pbool b) =
          .ok [⟨"id",
                if (operator = "=" ∧ b = true) ∨ (operator = "!=" ∧ b = false)
                then "inselect" else "not inselect",
                internal_project_query, []⟩])
    ∧ (∀ (operator : String) (b : Bool), operator ∈ (["=", "!="] : List String) →
        search_is_project_overtime operator (.pbool b) =
          .ok [⟨"id",
                if (operator = "=" ∧ b = true) ∨ (operator = "!=" ∧ b = false)
                then "inselect" else "not inselect",
                project_overtime_query, []⟩])
    ∧ search_is_internal_project "=" (.pbool true) =
        search_is_internal_project "!=" (.pbool false)
    ∧ search_is_project_overtime "=" (.pbool true) =
        search_is_project_overtime "!=" (.pbool false) := by
  refine ⟨search_internal_error_iff, search_overtime_error_iff, ?_, ?_, rfl, rfl⟩
  · intro operator b h
    simp [search_is_internal_project, h]
  · intro operator b h
    simp [search_is_project_overtime, h]

/-- Witness for C7: the translators evaluated at `('!=', True)`. -/
theorem search_boolean_translators_witness :
    search_is_internal_project "!=" (.pbool true) =
        .ok [⟨"id", "not inselect", internal_project_query, []⟩]
    ∧ search_is_project_overtime "!=" (.pbool true) =
        .ok [⟨"id", "not inselect", project_overtime_query, []⟩] :=
  ⟨search_boolean_translators.2.2.1 "!=" true (by decide),
   search_boolean_translators.2.2.2.1 "!=" true (by decide)⟩

/-- Counterexample to claim C8: on the unsupported operator `like`,
`Task._search_remaining_hours_percentage` raises `NotImplementedError`,
not the plain `ValueError` the claim asserts. -/
theorem search_remaining_hours_counterexample :
    search_remaining_hours_percentage "project_task" "like" (.pstr "x") =
        .error .notImplementedError
    ∧ search_remaining_hours_percentage "project_task" "like" (.pstr "x") ≠
        .error .valueError := by
  refine ⟨rfl, fun h => ?_⟩
  have h1 : search_remaining_hours_percentage "project_task" "like" (.pstr "x") =
      .error .notImplementedError := rfl
  exact Exc.noConfusion (Except.error.inj (h1.symm.trans h))

/-- Claim C8 as amended: a malformed operator makes the two project-level
boolean search methods raise `ValueError`, while
`Task._search_remaining_hours_percentage` raises `NotImplementedError`
for an operator outside `OPERATOR_MAPPING`. -/
theorem search_malformed_operator :
    (∀ (operator : String) (b : Bool), operator ∉ (["=", "!="] : List String) →
        search_is_internal_project operator (.pbool b) = .error .valueError
        ∧ search_is_project_overtime operator (.pbool b) = .error .valueError)
    ∧ (∀ (table operator : String) (value : PyVal), operator ∉ OPERATOR_MAPPING_KEYS →
        search_remaining_hours_percentage table operator value =
          .error .notImplementedError) := by
  constructor
  · intro operator b h
    exact ⟨(search_internal_error_iff operator (.pbool b)).mpr (Or.inr h),
           (search_overtime_error_iff operator (.pbool b)).mpr (Or.inr h)⟩
  · intro table operator value h
    simp [search_remaining_hours_percentage, h]

/-- Witness for C8: concrete malformed operators on all three methods. -/
theorem search_malformed_operator_witness :
    (search_is_internal_project "in" (.pbool true) = .error .valueError
      ∧ search_is_project_overtime "in" (.pbool true) = .error .valueError)
    ∧ search_remaining_hours_percentage "project_task" "child_of" (.pint 3) =
        .error .notImplementedError :=
  ⟨search_malformed_operator.1 "in" true (by decide),
   search_malformed_operator.2 "project_task" "child_of" (.pint 3) (by decide)⟩

lemma check_allow_timesheet_ok_iff (projects : List Project) :
    check_allow_timesheet projects = .ok () ↔
      ∀ p ∈ projects, p.allow_timesheets = true → p.analytic_account_id ≠ none := by
  unfold check_allow_timesheet
  by_cases h : (projects.any fun p => p.allow_timesheets && p.analytic_account_id.isNone) = true
  · rw [if_pos h]
    rw [List.any_eq_true] at h
    obtain ⟨p, hp, hcond⟩ := h
    rw [Bool.and_eq_true, Option.isNone_iff_eq_none] at hcond
    constructor
    · intro habs
      exact Except.noConfusion habs
    · intro hinv
      exact absurd hcond.2 (hinv p hp hcond.1)
  · rw [if_neg h]
    rw [Bool.not_eq_true, List.any_eq_false] at h
    constructor
    · intro _ p hp hallow hnone
      exact h p hp (by rw [Bool.and_eq_true, Option.isNone_iff_eq_none]; exact ⟨hallow, hnone⟩)
    · intro _
      rfl

lemma guard_check_ok {records result : List Project}
    (hok : guard_check records = .ok result) :
    records = result ∧ check_allow_timesheet records = .ok () := by
  unfold guard_check at hok
  cases hchk : check_allow_timesheet records with
  | error e => rw [hchk] at hok; exact Except.noConfusion hok
  | ok u => cases u; rw [hchk] at hok; exact ⟨Except.ok.inj hok, rfl⟩

/-- Claim C1: `allow_timesheets → analytic_account_id` is an enforced
invariant: the constraint accepts a recordset exactly when every project
allowing timesheets has an analytic account, it raises `ValidationError`
on any violating record, and every recordset that a `create` or `write`
pipeline persists (returns `.ok`) satisfies the invariant. -/
theorem allow_timesheet_invariant :
    (∀ projects : List Project,
        check_allow_timesheet projects = .ok () ↔
          ∀ p ∈ projects, p.allow_timesheets = true → p.analytic_account_id ≠ none)
    ∧ (∀ projects : List Project,
        (∃ p ∈ projects, p.allow_timesheets = true ∧ p.analytic_account_id = none) →
          check_allow_timesheet projects = .error .validationError)
    ∧ (∀ fresh projects values result,
        project_write fresh projects values = .ok result →
          ∀ p ∈ result, p.allow_timesheets = true → p.analytic_account_id ≠ none)
    ∧ (∀ fresh mkId defaults vals_list result,
        project_create fresh mkId defaults vals_list = .ok result →
          ∀ p ∈ result, p.allow_timesheets = true → p.analytic_account_id ≠ none) := by
  have herr : ∀ projects : List Project,
      (∃ p ∈ projects, p.allow_timesheets = true ∧ p.analytic_account_id = none) →
        check_allow_timesheet projects = .error .validationError := by
    intro projects ⟨p, hp, hallow, hnone⟩
    unfold check_allow_timesheet
    rw [if_pos]
    rw [List.any_eq_true]
    exact ⟨p, hp, by rw [Bool.and_eq_true, Option.isNone_iff_eq_none]; exact ⟨hallow, hnone⟩⟩
  refine ⟨check_allow_timesheet_ok_iff, herr, ?_, ?_⟩
  · intro fresh projects values result hok
    unfold project_write at hok
    obtain ⟨hres, hchk⟩ := guard_check_ok hok
    rw [← hres]
    exact (check_allow_timesheet_ok_iff _).mp hchk
  · intro fresh mkId defaults vals_list result hok
    unfold project_create at hok
    obtain ⟨hres, hchk⟩ := guard_check_ok hok
    rw [← hres]
    exact (check_allow_timesheet_ok_iff _).mp hchk

/-- Witness for C1: a project allowing timesheets without an analytic
account makes the constraint raise, and a persisted write result keeps
the invariant. -/
theorem allow_timesheet_invariant_witness :
    check_allow_timesheet [⟨1, true, none, []⟩] = .error .validationError
    ∧ (⟨2, true, some 7, []⟩ : Project).analytic_account_id ≠ none :=
  ⟨allow_timesheet_invariant.2.1 [⟨1, true, none, []⟩]
      ⟨⟨1, true, none, []⟩, by decide, rfl, rfl⟩,
   allow_timesheet_invariant.2.2.1 id [⟨2, true, some 7, []⟩] ⟨none, none⟩
      [⟨2, true, some 7, []⟩] rfl ⟨2, true, some 7, []⟩ (by decide) rfl⟩

lemma project_create_prepare_covers (fresh : Nat → Nat) (defaults : ProjectVals) :
    ∀ (i : Nat) (vals_list : List ProjectVals), ∀ vals ∈ vals_list,
      eff_allow defaults vals = true → eff_account defaults vals = none →
        ∃ j, { vals with analytic_account_id := some (some (fresh j)) } ∈
          project_create_prepare fresh defaults i vals_list := by
  intro i vals_list
  induction vals_list generalizing i with
  | nil => intro vals hmem; exact absurd hmem (List.not_mem_nil vals)
  | cons v rest ih =>
    intro vals hmem hallow haccount
    rcases List.mem_cons.mp hmem with hv | hrest
    · subst hv
      refine ⟨i, ?_⟩
      unfold project_create_prepare
      rw [if_pos (by rw [hallow, haccount]; rfl)]
      exact List.mem_cons_self _ _
    · obtain ⟨j, hj⟩ := ih (i + 1) vals hrest hallow haccount
      refine ⟨j, ?_⟩
      unfold project_create_prepare
      exact List.mem_cons_of_mem _ hj

lemma project_create_prepare_linked (fresh : Nat → Nat) (defaults : ProjectVals) :
    ∀ (i : Nat) (vals_list : List ProjectVals),
      ∀ v ∈ project_create_prepare fresh defaults i vals_list,
        eff_allow defaults v = true → (eff_account defaults v).isSome := by
  intro i vals_list
  induction vals_list generalizing i with
  | nil => intro v hmem; exact absurd hmem (List.not_mem_nil v)
  | cons w rest ih =>
    intro v hmem hallow
    unfold project_create_prepare at hmem
    rcases List.mem_cons.mp hmem with hv | hrest
    · by_cases hcond : (eff_allow defaults w && (eff_account defaults w).isNone) = true
      · rw [if_pos hcond] at hv
        subst hv
        simp [eff_account]
      · rw [if_neg hcond] at hv
        subst hv
        rw [Bool.and_eq_true] at hcond
        cases hacc : eff_account defaults v with
        | none => exact absurd ⟨hallow, by rw [hacc]; rfl⟩ hcond
        | some a => rfl
    · exact ih (i + 1) v hrest hallow

/-- Claim C2: `create` auto-provisions an analytic account whenever the
effective `allow_timesheets` (from the vals or the defaults) is true and
no account is supplied, before the record is stored; and a `write`
setting `allow_timesheets` truthy without an account links a fresh
account to every project of the recordset that lacks one, while projects
already holding an account are left as they are. -/
theorem project_auto_analytic_account :
    (∀ (fresh : Nat → Nat) (defaults : ProjectVals) (i : Nat)
        (vals_list : List ProjectVals), ∀ vals ∈ vals_list,
        eff_allow defaults vals = true → eff_account defaults vals = none →
          ∃ j, { vals with analytic_account_id := some (some (fresh j)) } ∈
            project_create_prepare fresh defaults i vals_list)
    ∧ (∀ (fresh : Nat → Nat) (defaults : ProjectVals) (i : Nat)
        (vals_list : List ProjectVals),
        ∀ v ∈ project_create_prepare fresh defaults i vals_list,
          eff_allow defaults v = true → (eff_account defaults v).isSome)
    ∧ (∀ (fresh : Nat → Nat) (projects : List Project) (values : ProjectVals),
        values.allow_timesheets.getD false = true →
        accountTruthy values.analytic_account_id = false →
        ∀ p ∈ projects,
          (p.analytic_account_id = none →
            { p with analytic_account_id := some (fresh p.id) } ∈
              project_write_hook fresh projects values)
          ∧ (∀ a, p.analytic_account_id = some a →
              p ∈ project_write_hook fresh projects values)) := by
  refine ⟨project_create_prepare_covers, project_create_prepare_linked, ?_⟩
  intro fresh projects values hallow haccount p hp
  unfold project_write_hook
  rw [hallow, haccount]
  rw [if_pos (show (true && !false) = true from rfl)]
  constructor
  · intro hnone
    refine List.mem_map.mpr ⟨p, hp, ?_⟩
    simp [hnone]
  · intro a ha
    refine List.mem_map.mpr ⟨p, hp, ?_⟩
    simp [ha]

/-- Witness for C2: a create whose vals allow timesheets by default gets a
fresh account into the prepared vals, and a write hook provisions the
project lacking an account while leaving the other untouched. -/
theorem project_auto_analytic_account_witness :
    (∃ j, ({ allow_timesheets := some true,
             analytic_account_id := some (some (j + 40)) } : ProjectVals) ∈
        project_create_prepare (fun k => k + 40) ⟨some true, none⟩ 0
          [⟨some true, none⟩])
    ∧ ({ id := 5, allow_timesheets := false, analytic_account_id := some 45,
         timesheet_ids := [] } : Project) ∈
        project_write_hook (fun k => k + 40)
          [⟨5, false, none, []⟩, ⟨6, true, some 9, []⟩] ⟨some true, none⟩
    ∧ (⟨6, true, some 9, []⟩ : Project) ∈
        project_write_hook (fun k => k + 40)
          [⟨5, false, none, []⟩, ⟨6, true, some 9, []⟩] ⟨some true, none⟩ := by
  refine ⟨?_, ?_, ?_⟩
  · obtain ⟨j, hj⟩ := project_auto_analytic_account.1 (fun k => k + 40)
      ⟨some true, none⟩ 0 [⟨some true, none⟩] ⟨some true, none⟩
      (List.mem_singleton.mpr rfl) rfl rfl
    exact ⟨j, hj⟩
  · exact ((project_auto_analytic_account.2.2 (fun k => k + 40)
      [⟨5, false, none, []⟩, ⟨6, true, some 9, []⟩] ⟨some true, none⟩ rfl rfl
      ⟨5, false, none, []⟩ (by simp)).1 rfl)
  · exact ((project_auto_analytic_account.2.2 (fun k => k + 40)
      [⟨5, false, none, []⟩, ⟨6, true, some 9, []⟩] ⟨some true, none⟩ rfl rfl
      ⟨6, true, some 9, []⟩ (by simp)).2 9 rfl)

/-- Claim C3: writing a falsy `project_id` on a task with linked
timesheets raises `UserError` (the write is rejected before any state
change), while a task without timesheets loses its project without
error. -/
theorem task_write_project_required :
    (∀ (projects : List Project) (t : Task), t.timesheet_ids ≠ [] →
        task_write projects t ⟨some none⟩ = .error .userError)
    ∧ (∀ (projects : List Project) (t : Task), t.timesheet_ids = [] →
        task_write projects t ⟨some none⟩ = .ok { t with project_id := none }) := by
  constructor
  · intro projects t hts
    simp [task_write, get_timesheet, List.isEmpty_iff, hts]
  · intro projects t hts
    simp [task_write, get_timesheet, List.isEmpty_iff, hts, find_project]

/-- Witness for C3: a task with one timesheet entry cannot lose its
project; a task with none can. -/
theorem task_write_project_required_witness :
    task_write [] ⟨1, some 5, [⟨10, some 5, some 1⟩]⟩ ⟨some none⟩ = .error .userError
    ∧ task_write [] ⟨2, some 5, []⟩ ⟨some none⟩ = .ok ⟨2, none, []⟩ :=
  ⟨task_write_project_required.1 [] ⟨1, some 5, [⟨10, some 5, some 1⟩]⟩ (by decide),
   task_write_project_required.2 [] ⟨2, some 5, []⟩ rfl⟩

/-- Claim C10: a task write carrying a (truthy) new `project_id` rewrites
`project_id` on all the task's timesheet lines when the target project
allows timesheets, and leaves the lines untouched when it does not (or
does not exist). -/
theorem task_write_moves_timesheets :
    ∀ (projects : List Project) (t : Task) (pid : Nat) (result : Task),
      task_write projects t ⟨some (some pid)⟩ = .ok result →
        result.project_id = some pid
        ∧ (∀ p, find_project projects (some pid) = some p → p.allow_timesheets = true →
            result.timesheet_ids =
              t.timesheet_ids.map (fun l => { l with project_id := some pid }))
        ∧ ((∀ p, find_project projects (some pid) = some p → p.allow_timesheets = false) →
            result.timesheet_ids = t.timesheet_ids) := by
  intro projects t pid result hok
  simp only [task_write, Option.isNone_some, Bool.false_eq_true, false_and, if_false,
    get_timesheet] at hok
  cases hfind : find_project projects (some pid) with
  | none =>
    rw [hfind] at hok
    simp only [Option.map_none', Option.getD_none, Bool.false_eq_true, if_false,
      Except.ok.injEq] at hok
    rw [← hok]
    exact ⟨rfl, fun p hp => Option.noConfusion hp, fun _ => rfl⟩
  | some p =>
    rw [hfind] at hok
    simp only [Option.map_some', Option.getD_some] at hok
    cases hallow : p.allow_timesheets with
    | true =>
      simp only [hallow, if_true, Except.ok.injEq] at hok
      rw [← hok]
      refine ⟨rfl, fun q _ _ => rfl, fun hforall => ?_⟩
      have hcontra := hforall p rfl
      rw [hallow] at hcontra
      exact Bool.noConfusion hcontra
    | false =>
      simp only [hallow, Bool.false_eq_true, if_false, Except.ok.injEq] at hok
      rw [← hok]
      refine ⟨rfl, fun q hq hqallow => ?_, fun _ => rfl⟩
      have hpq : p = q := Option.some.inj hq
      rw [← hpq, hallow] at hqallow
      exact Bool.noConfusion hqallow

/-- Witness for C10: moving a task with one timesheet line to a
timesheet-enabled project rewrites the line; moving it to a project that
forbids timesheets leaves the line alone. -/
theorem task_write_moves_timesheets_witness :
    (task_write [⟨3, true, some 9, []⟩] ⟨1, none, [⟨10, none, some 1⟩]⟩
        ⟨some (some 3)⟩ = .ok ⟨1, some 3, [⟨10, some 3, some 1⟩]⟩
      ∧ (⟨1, some 3, [⟨10, some 3, some 1⟩]⟩ : Task).timesheet_ids =
          ([⟨10, none, some 1⟩] : List Timesheet).map
            (fun l => { l with project_id := some 3 }))
    ∧ (task_write [⟨4, false, none, []⟩] ⟨1, none, [⟨10, none, some 1⟩]⟩
        ⟨some (some 4)⟩ = .ok ⟨1, some 4, [⟨10, none, some 1⟩]⟩
      ∧ (⟨1, some 4, [⟨10, none, some 1⟩]⟩ : Task).timesheet_ids =
          ([⟨10, none, some 1⟩] : List Timesheet)) :=
  ⟨⟨rfl, (task_write_moves_timesheets [⟨3, true, some 9, []⟩]
      ⟨1, none, [⟨10, none, some 1⟩]⟩ 3 ⟨1, some 3, [⟨10, some 3, some 1⟩]⟩
      rfl).2.1 ⟨3, true, some 9, []⟩ rfl rfl⟩,
   ⟨rfl, (task_write_moves_timesheets [⟨4, false, none, []⟩]
      ⟨1, none, [⟨10, none, some 1⟩]⟩ 4 ⟨1, some 4, [⟨10, none, some 1⟩]⟩
      rfl).2.2 (fun p hp => by rw [← Option.some.inj hp])⟩⟩

/-- Claim C4: deleting projects or tasks that still have timesheet
entries raises a `RedirectWarning` naming exactly the offending records,
and the database is left untouched; when no record of the set has
entries, the delete hooks raise nothing. -/
theorem unlink_blocked_by_timesheets :
    (∀ projects : List Project,
        ((∃ p ∈ projects, p.timesheet_ids ≠ []) →
          project_unlink_check projects =
            .error (.redirectWarning
              ((projects.filter (fun p => ¬p.timesheet_ids.isEmpty)).map
                (fun p => p.id))))
        ∧ ((∀ p ∈ projects, p.timesheet_ids = []) →
          project_unlink_check projects = .ok ()))
    ∧ (∀ (tasks : List Task) (lines : List Timesheet),
        ((∃ t ∈ tasks, ∃ l ∈ lines, l.task_id = some t.id) →
          task_unlink_check tasks lines =
            .error (.redirectWarning
              ((tasks.map (fun t => t.id)).filter
                (fun i => lines.any (fun l => l.task_id = some i)))))
        ∧ ((∀ t ∈ tasks, ∀ l ∈ lines, l.task_id ≠ some t.id) →
          task_unlink_check tasks lines = .ok ()))
    ∧ (∀ (db projects : List Project) (e : Exc),
        project_unlink_check projects = .error e →
          project_unlink db projects = .error e)
    ∧ (∀ (db tasks : List Task) (lines : List Timesheet) (e : Exc),
        task_unlink_check tasks lines = .error e →
          task_unlink db tasks lines = .error e) := by
  refine ⟨?_, ?_, ?_, ?_⟩
  · intro projects
    constructor
    · intro ⟨p, hp, hne⟩
      unfold project_unlink_check
      rw [if_pos]
      rw [List.isEmpty_iff]
      intro hfilter
      have hmem : p ∈ projects.filter (fun q => ¬q.timesheet_ids.isEmpty) :=
        List.mem_filter.mpr ⟨hp, by simp [List.isEmpty_iff, hne]⟩
      rw [hfilter] at hmem
      exact List.not_mem_nil p hmem
    · intro hall
      unfold project_unlink_check
      rw [if_neg]
      intro hne
      rw [List.isEmpty_iff] at hne
      have hnil : projects.filter (fun q => ¬q.timesheet_ids.isEmpty) = [] := by
        rw [List.filter_eq_nil_iff]
        intro p hp
        simp [List.isEmpty_iff, hall p hp]
      exact hne hnil
  · intro tasks lines
    constructor
    · intro ⟨t, ht, l, hl, hid⟩
      unfold task_unlink_check
      rw [if_pos]
      rw [List.isEmpty_iff]
      intro hfilter
      have hmem : t.id ∈ (tasks.map (fun u => u.id)).filter
          (fun i => lines.any (fun m => m.task_id = some i)) := by
        refine List.mem_filter.mpr ⟨List.mem_map_of_mem _ ht, ?_⟩
        rw [List.any_eq_true]
        exact ⟨l, hl, by rw [hid]; exact decide_eq_true rfl⟩
      rw [hfilter] at hmem
      exact List.not_mem_nil t.id hmem
    · intro hall
      unfold task_unlink_check
      rw [if_neg]
      intro hne
      rw [List.isEmpty_iff] at hne
      have hnil : (tasks.map (fun u => u.id)).filter
          (fun i => lines.any (fun m => m.task_id = some i)) = [] := by
        rw [List.filter_eq_nil_iff]
        intro i hi
        obtain ⟨t, ht, hti⟩ := List.mem_map.mp hi
        rw [List.any_eq_true]
        rintro ⟨l, hl, hid⟩
        rw [← hti] at hid
        exact hall t ht l hl (of_decide_eq_true hid)
      exact hne hnil
  · intro db projects e herr
    unfold project_unlink
    rw [herr]
  · intro db tasks lines e herr
    unfold task_unlink
    rw [herr]

/-- Witness for C4: one project with an entry is blocked with its id in
the warning and stays in the database; an entry-free set raises
nothing. -/
theorem unlink_blocked_by_timesheets_witness :
    project_unlink_check [⟨1, true, some 7, [⟨10, some 1, none⟩]⟩] =
        .error (.redirectWarning [1])
    ∧ task_unlink_check [⟨2, some 1, []⟩] [] = .ok ()
    ∧ project_unlink [⟨1, true, some 7, [⟨10, some 1, none⟩]⟩]
        [⟨1, true, some 7, [⟨10, some 1, none⟩]⟩] =
        .error (.redirectWarning [1]) := by
  refine ⟨?_, ?_, ?_⟩
  · exact (unlink_blocked_by_timesheets.1 _).1
      ⟨⟨1, true, some 7, [⟨10, some 1, none⟩]⟩, by decide, by decide⟩
  · exact (unlink_blocked_by_timesheets.2.1 _ _).2
      (fun t ht l hl => absurd hl (List.not_mem_nil l))
  · exact unlink_blocked_by_timesheets.2.2.1 _ _ _
      ((unlink_blocked_by_timesheets.1 _).1
        ⟨⟨1, true, some 7, [⟨10, some 1, none⟩]⟩, by decide, by decide⟩)

lemma children_rollup_map (cs : List TaskTree) :
    children_rollup cs =
      (cs.map (fun c => c.effective_hours + subtask_effective_hours c)).sum := by
  induction cs with
  | nil => simp [children_rollup]
  | cons c rest ih => simp [children_rollup, ih]

mutual

theorem subtask_eq_descendants :
    (t : TaskTree) → subtask_effective_hours t =
      ((descendant_tasks t).map TaskTree.effective_hours).sum
  | .node e a cs => by
    rw [show subtask_effective_hours (.node e a cs) = children_rollup cs from by
      simp [subtask_effective_hours]]
    rw [show descendant_tasks (.node e a cs) = descendant_list cs from by
      simp [descendant_tasks]]
    exact children_rollup_eq_descendant_list cs

theorem children_rollup_eq_descendant_list :
    (cs : List TaskTree) → children_rollup cs =
      ((descendant_list cs).map TaskTree.effective_hours).sum
  | [] => by simp [children_rollup, descendant_list]
  | c :: rest => by
    rw [show children_rollup (c :: rest) =
      (c.effective_hours + subtask_effective_hours c) + children_rollup rest from by
      simp [children_rollup]]
    rw [show descendant_list (c :: rest) =
      c :: (descendant_tasks c ++ descendant_list rest) from by simp [descendant_list]]
    rw [subtask_eq_descendants c, children_rollup_eq_descendant_list rest]
    simp [List.map_append]
    ring

end

/-- Claim C5: `subtask_effective_hours` is the sum over the direct
children (archived ones included, since the `active` flag plays no part)
of `child.effective_hours + child.subtask_effective_hours`, which equals
the rollup of all proper descendants' effective hours; the value is a
pure function of the children subtrees alone. -/
theorem subtask_effective_hours_rollup :
    (∀ (e : ℚ) (a : Bool) (cs : List TaskTree),
        subtask_effective_hours (.node e a cs) =
          (cs.map (fun c => c.effective_hours + subtask_effective_hours c)).sum)
    ∧ (∀ t : TaskTree,
        subtask_effective_hours t =
          ((descendant_tasks t).map TaskTree.effective_hours).sum)
    ∧ (∀ (e : ℚ) (a : Bool) (cs : List TaskTree) (e2 : ℚ) (a2 : Bool),
        subtask_effective_hours (.node e a cs) =
          subtask_effective_hours (.node e2 a2 cs)) := by
  refine ⟨?_, subtask_eq_descendants, ?_⟩
  · intro e a cs
    rw [show subtask_effective_hours (.node e a cs) = children_rollup cs from by
      simp [subtask_effective_hours]]
    exact children_rollup_map cs
  · intro e a cs e2 a2
    simp [subtask_effective_hours]

/-- Counterexample to claim C6: for a task with `effective_hours = 0`,
`subtask_effective_hours = 10` and `planned_hours = 5`, the code computes
`(progress, overtime) = (100, 5)` from the total
`effective_hours + subtask_effective_hours`, while the claim formula over
the two inputs `effective_hours` and `planned_hours` alone yields
`(0, 0)`. -/
theorem compute_progress_hours_counterexample :
    compute_progress_hours 0 10 5 = (100, 5)
    ∧ spec_progress_two_inputs 0 5 = (0, 0)
    ∧ compute_progress_hours 0 10 5 ≠ spec_progress_two_inputs 0 5 := by
  have h1 : compute_progress_hours 0 10 5 = (100, 5) := by
    norm_num [compute_progress_hours, float_compare2, float_round2]
  have h2 : spec_progress_two_inputs 0 5 = (0, 0) := by
    norm_num [spec_progress_two_inputs, float_compare2, float_round2, py_round2]
  refine ⟨h1, h2, ?_⟩
  rw [h1, h2]
  intro h
  exact absurd (congrArg Prod.fst h) (by norm_num)

/-- Claim C6 as amended: progress and overtime are derived from the task
total `effective_hours + subtask_effective_hours` and `planned_hours`:
when `planned_hours > 0`, `overtime = max(total - planned_hours, 0)` and
`progress` is `100` when the total reaches the planned hours within the
two-decimal `float_compare` tolerance and
`round(100 * total / planned_hours, 2)` otherwise; when
`planned_hours <= 0`, both are `0`. -/
theorem compute_progress_hours_amended :
    ∀ effective subtask planned : ℚ,
      (planned > 0 →
        compute_progress_hours effective subtask planned =
          ((if float_compare2 (effective + subtask) planned ≥ 0 then 100
            else py_round2 (100 * (effective + subtask) / planned)),
           max (effective + subtask - planned) 0))
      ∧ (planned ≤ 0 → compute_progress_hours effective subtask planned = (0, 0)) := by
  intro effective subtask planned
  constructor
  · intro h
    rw [compute_progress_hours, if_pos h]
    by_cases hc : float_compare2 (effective + subtask) planned ≥ 0
    · rw [if_pos hc, if_pos hc]
    · rw [if_neg hc, if_neg hc]
  · intro h
    rw [compute_progress_hours, if_neg (not_lt.mpr h)]

/-- Witness for C6: a half-done task shows the round branch and a
finished one the tolerance branch. -/
theorem compute_progress_hours_amended_witness :
    compute_progress_hours 1 0 2 = (50, 0)
    ∧ compute_progress_hours 2 1 3 = (100, 0) := by
  constructor
  · have h := (compute_progress_hours_amended 1 0 2).1 (by norm_num)
    rw [h]
    norm_num [float_compare2, float_round2, py_round2]
  · have h := (compute_progress_hours_amended 2 1 3).1 (by norm_num)
    rw [h]
    norm_num [float_compare2, float_round2]

/-- Claim C9: the derived-ratio computations are total and guarded:
division by `planned_hours` happens only under `planned_hours > 0` (hence
a nonzero divisor), and a non-positive `planned_hours` yields `0` for the
percentage and `(0, 0)` for progress/overtime. -/
theorem derived_ratios_guarded :
    ∀ planned remaining effective subtask : ℚ,
      (planned > 0 →
        planned ≠ 0
        ∧ compute_remaining_hours_percentage planned remaining = remaining / planned)
      ∧ (¬planned > 0 → compute_remaining_hours_percentage planned remaining = 0)
      ∧ (¬planned > 0 → compute_progress_hours effective subtask planned = (0, 0)) := by
  intro planned remaining effective subtask
  refine ⟨fun h => ⟨ne_of_gt h, ?_⟩, fun h => ?_, fun h => ?_⟩
  · rw [compute_remaining_hours_percentage, if_pos h]
  · rw [compute_remaining_hours_percentage, if_neg h]
  · rw [compute_progress_hours, if_neg h]

/-- Witness for C9: concrete guarded and unguarded evaluations. -/
theorem derived_ratios_guarded_witness :
    compute_remaining_hours_percentage 4 1 = 1 / 4
    ∧ compute_remaining_hours_percentage 0 3 = 0
    ∧ compute_progress_hours 3 0 0 = (0, 0) :=
  ⟨((derived_ratios_guarded 4 1 0 0).1 (by norm_num)).2,
   (derived_ratios_guarded 0 3 0 0).2.1 (by norm_num),
   (derived_ratios_guarded 0 0 3 0).2.2 (by norm_num)⟩

end HrTimesheet
